import Mathlib

/-!
Shallow embedding of `gear_optimizer.py` (Gear_Calculator).

Items carry an open attribute bag (stat name to numeric value); a gear
loadout is a list of (slot type, item) pairs.  Python floats are modelled
as rationals; a Python dict is modelled as an association list; a missing
dict key (`KeyError`) is modelled with `Option` via `List.lookup`.
-/

/-- `Item` from the source: a name together with its attribute mapping. -/
structure Item where
  name : String
  data : List (String × ℚ)

/-- `Gear` from the source: one (slot type, item) pair per equipped slot. -/
abbrev Gear := List (String × Item)

/-- `Optimizer.get_property_sum`: sums `item.data[property]` over the loadout,
skipping items whose attribute bag lacks the key (the `except KeyError`
branch). -/
def get_property_sum (property : String) (gear : Gear) : ℚ :=
  gear.foldl (fun sum ki =>
    match ki.2.data.lookup property with
    | some v => sum + v
    | none => sum) 0

/-- `Optimizer.calc_general_reduction`: returns 0 on no arguments, otherwise
`1 - Π (1 - r_i)` computed by the source's running-product loop. -/
def calc_general_reduction (reductions : List ℚ) : ℚ :=
  if reductions.length = 0 then 0
  else 1 - reductions.foldl (fun damage r => damage * (1 - r)) 1

/-- `Optimizer.calc_protection_reduction`: `min(protection * 0.04, 0.8)`. -/
def calc_protection_reduction (protection : ℚ) : ℚ :=
  min (protection * 0.04) 0.8

/-- `Optimizer.calc_armor_reduction`:
`min(20, max(armor / 5, armor - expected_damage / (2 + toughness / 4))) / 25`. -/
def calc_armor_reduction (expected_damage armor toughness : ℚ) : ℚ :=
  min 20 (max (armor / 5) (armor - expected_damage / (2 + toughness / 4))) / 25

/-- `Optimizer.calc_evasion_reduction`: `min((evasion // 5) * 0.2, 0.8)`;
Python float floor-division is `Int.floor` of the quotient. -/
def calc_evasion_reduction (evasion : ℚ) : ℚ :=
  min ((⌊evasion / 5⌋ : ℚ) * 0.2) 0.8

/-- `Optimizer.calc_effective_health`:
`(20 + Σ health) * (1 + Σ health_p) * (1 / (1 - reduction))`. -/
def calc_effective_health (reduction : ℚ) (gear : Gear) : ℚ :=
  (20 + get_property_sum "health" gear) * (1 + get_property_sum "health_p" gear)
    * (1 / (1 - reduction))

/-- `Optimizer.calc_spec_protection_reduction`: specialized sum counts double. -/
def calc_spec_protection_reduction (protection spec : ℚ) : ℚ :=
  calc_protection_reduction (protection + spec * 2)

/-- `Optimizer.calc_spec_evasion_reduction`: specialized sum counts double. -/
def calc_spec_evasion_reduction (evasion spec : ℚ) : ℚ :=
  calc_evasion_reduction (evasion + spec * 2)

/-- The `reduction_data` dict built by `Optimizer.calc_damage_reduction`,
with one field per key the source ever stores before scaling. -/
structure ReductionData where
  protection : ℚ
  armor : ℚ
  evasion : ℚ
  general : ℚ
  true_effective_health : ℚ
  projectile : ℚ
  blast : ℚ
  fire : ℚ
  feather_falling : ℚ
  ability : ℚ
  melee : ℚ

/-- Dict-style read `reduction_data[key]` on the keys the source stores. -/
def ReductionData.lookup (rd : ReductionData) (key : String) : ℚ :=
  if key = "protection" then rd.protection
  else if key = "armor" then rd.armor
  else if key = "evasion" then rd.evasion
  else if key = "general" then rd.general
  else if key = "true_effective_health" then rd.true_effective_health
  else if key = "projectile" then rd.projectile
  else if key = "blast" then rd.blast
  else if key = "fire" then rd.fire
  else if key = "feather_falling" then rd.feather_falling
  else if key = "ability" then rd.ability
  else if key = "melee" then rd.melee
  else 0

/-- `Optimizer.calc_damage_reduction`: computes the generic reductions, their
multiplicative combination, the true effective health, and the six
specialized reductions. -/
def calc_damage_reduction (expected_damage : ℚ) (gear : Gear) : ReductionData :=
  let protection := get_property_sum "protection" gear
  let armor := get_property_sum "armor" gear
  let toughness := get_property_sum "armor_t" gear
  let evasion := get_property_sum "evasion" gear
  let proj_protection := get_property_sum "proj_protection" gear
  let blast_protection := get_property_sum "blast_protection" gear
  let fire_protection := get_property_sum "fire_protection" gear
  let feather_falling := get_property_sum "feather_falling" gear
  let ability_evasion := get_property_sum "ability_evasion" gear
  let melee_evasion := get_property_sum "melee_evasion" gear
  let protection_r := calc_protection_reduction protection
  let armor_r := calc_armor_reduction expected_damage armor toughness
  let evasion_r := calc_evasion_reduction evasion
  let general_r := calc_general_reduction [protection_r, armor_r, evasion_r]
  { protection := protection_r
    armor := armor_r
    evasion := evasion_r
    general := general_r
    true_effective_health := calc_effective_health general_r gear
    projectile := calc_spec_protection_reduction protection proj_protection
    blast := calc_spec_protection_reduction protection blast_protection
    fire := calc_spec_protection_reduction protection fire_protection
    feather_falling := calc_spec_protection_reduction protection feather_falling
    ability := calc_spec_evasion_reduction evasion ability_evasion
    melee := calc_spec_evasion_reduction evasion melee_evasion }

/-- `Optimizer.scale_reduction_type`: iterates the `type_scaling` dict, keeps
the entries whose key is in `damage_types`, sums `reduction_data[key] * scale`,
and divides by `max(Σ matching scales, 1)`. -/
def scale_reduction_type (type_scaling : List (String × ℚ))
    (reduction_data : ReductionData) (damage_types : List String) : ℚ :=
  let total_scale :=
    max (((type_scaling.filter (fun x => decide (x.1 ∈ damage_types))).map
      (fun x => x.2)).sum) 1
  let scaled_reduction :=
    ((type_scaling.filter (fun x => decide (x.1 ∈ damage_types))).map
      (fun x => reduction_data.lookup x.1 * x.2)).sum
  scaled_reduction / total_scale

/-- The scaled keys `Optimizer.calc_scaled_reduction` adds to the dict. -/
structure ScaledData where
  scaled_protection : ℚ
  scaled_armor : ℚ
  scaled_evasion : ℚ
  scaled : ℚ
  scaled_effective_health : ℚ

/-- `Optimizer.calc_scaled_reduction`: scales the three categories with the
source's hard-coded damage-type lists, combines them, and computes the scaled
effective health. -/
def calc_scaled_reduction (type_scaling : List (String × ℚ))
    (reduction_data : ReductionData) (gear : Gear) : ScaledData :=
  let sp := scale_reduction_type type_scaling reduction_data
    ["protection", "projectile", "fire", "blast", "feather_falling"]
  let sa := scale_reduction_type type_scaling reduction_data ["armor"]
  let se := scale_reduction_type type_scaling reduction_data
    ["evasion", "ability", "melee"]
  let s := calc_general_reduction [sp, sa, se]
  { scaled_protection := sp
    scaled_armor := sa
    scaled_evasion := se
    scaled := s
    scaled_effective_health := calc_effective_health s gear }

/-- `Optimizer.legal_item`: not blacklisted, and whitelisted whenever a
non-empty whitelist is set (`None` and `[]` both behave as unset). -/
def legal_item (whitelist blacklist : List String) (item : String) : Bool :=
  decide (item ∉ blacklist) && (whitelist.isEmpty || decide (item ∈ whitelist))

/-- Per-slot body of `Optimizer.generate_gear_list`: the legal items if any,
otherwise every non-blacklisted item of the slot. -/
def slot_candidates (whitelist blacklist : List String)
    (item_names : List String) : List String :=
  if (item_names.filter (fun n => legal_item whitelist blacklist n)).isEmpty then
    item_names.filter
      (fun n => !legal_item whitelist blacklist n && decide (n ∉ blacklist))
  else
    item_names.filter (fun n => legal_item whitelist blacklist n)

/-- `Optimizer.generate_gear_list`: one candidate list per non-skipped slot. -/
def generate_gear_list (whitelist blacklist : List String)
    (item_types : List String) (skip_weapon : Bool)
    (items : String → List String) : List (List String) :=
  (item_types.filter (fun t => !(decide (t = "weapon") && skip_weapon))).map
    (fun t => slot_candidates whitelist blacklist (items t))

/-- One iteration of the enumeration loop of `Optimizer.optimize_gear`:
the `(scaled_data, gear)` entry appended to `self.gear_data`. -/
def evaluate_loadout (expected_damage : ℚ) (type_scaling : List (String × ℚ))
    (gear : Gear) : ScaledData × Gear :=
  (calc_scaled_reduction type_scaling (calc_damage_reduction expected_damage gear) gear,
   gear)

/-- The sort key comparison of `Optimizer.optimize_gear`:
`key=lambda x: x[0]["scaled_effective_health"]`, ascending. -/
def score_le (a b : ScaledData × Gear) : Bool :=
  decide (a.1.scaled_effective_health ≤ b.1.scaled_effective_health)

/-- The ranking phase of `Optimizer.optimize_gear`: stable-sort ascending by
`scaled_effective_health`, then emit the entries from index
`max(len - display_num, 0)` to the end. -/
def optimize_gear (expected_damage : ℚ) (type_scaling : List (String × ℚ))
    (display_num : ℕ) (loadouts : List Gear) : List (ScaledData × Gear) :=
  let gear_data := loadouts.map (evaluate_loadout expected_damage type_scaling)
  let sorted := gear_data.mergeSort score_le
  sorted.drop (sorted.length - display_num)

/-- The spec's scaled-category formula, written from the spec's words: sum of
`reductionProfile[subtype] * weights[subtype]` over the category's sub-types
that are present in the weights mapping, divided by
`max(Σ present sub-type weights, 1)`. -/
def specScaledCategory (weights : List (String × ℚ))
    (reduction_data : ReductionData) (subtypes : List String) : ℚ :=
  ((subtypes.filterMap
      (fun t => (weights.lookup t).map (fun w => reduction_data.lookup t * w))).sum)
    / max ((subtypes.filterMap (fun t => weights.lookup t)).sum) 1

/-- A concrete reduction profile (protection reduction 4/5, everything else 0)
used to evaluate the scaling formulas at a specific input. -/
def sampleReduction : ReductionData :=
  { protection := 4 / 5
    armor := 0
    evasion := 0
    general := 0
    true_effective_health := 0
    projectile := 0
    blast := 0
    fire := 0
    feather_falling := 0
    ability := 0
    melee := 0 }

/-!  Helper lemmas shared by several claims.  -/

private lemma foldl_damage_pos (rs : List ℚ) :
    ∀ init : ℚ, 0 < init → (∀ f ∈ rs, f < 1) →
      0 < rs.foldl (fun damage r => damage * (1 - r)) init := by
  induction rs with
  | nil => intro init h _; simpa using h
  | cons a l ih =>
    intro init h hall
    simp only [List.foldl_cons]
    have ha : a < 1 := hall a (by simp)
    exact ih _ (mul_pos h (by linarith)) (fun f hf => hall f (by simp [hf]))

private lemma general_reduction_eq (rs : List ℚ) :
    calc_general_reduction rs = 1 - (rs.map (fun r => 1 - r)).prod := by
  rw [calc_general_reduction]
  split
  · rename_i h
    have : rs = [] := List.length_eq_zero.mp h
    subst this; simp
  · rw [List.prod_eq_foldl, List.foldl_map]

/-- C4: the armor reduction is
`min(20, max(armorSum/5, armorSum - expectedDamage/(2 + toughnessSum/4))) / 25`. -/
theorem calc_armor_reduction_formula (a t e : ℚ) (h : 2 + t / 4 ≠ 0) :
    calc_armor_reduction e a t
      = min 20 (max (a / 5) (a - e / (2 + t / 4))) / 25 := rfl

theorem calc_armor_reduction_formula_witness :
    (2 + (4 : ℚ) / 4 ≠ 0) ∧
      calc_armor_reduction 20 10 4
        = min 20 (max ((10 : ℚ) / 5) (10 - 20 / (2 + 4 / 4))) / 25 :=
  ⟨by norm_num, calc_armor_reduction_formula 10 4 20 (by norm_num)⟩

/-- C5: for fractions all in `[0, 0.8]`, the combined reduction stays strictly
below 1, so the divisor `1 - combinedReduction` used by the effective-health
computation is strictly positive. -/
theorem calc_general_reduction_lt_one (rs : List ℚ)
    (h : ∀ f ∈ rs, 0 ≤ f ∧ f ≤ 0.8) :
    calc_general_reduction rs < 1 ∧ 0 < 1 - calc_general_reduction rs := by
  rw [calc_general_reduction]
  split
  · norm_num
  · have hpos : 0 < rs.foldl (fun damage r => damage * (1 - r)) 1 :=
      foldl_damage_pos rs 1 (by norm_num)
        (fun f hf => by have := (h f hf).2; norm_num at this ⊢; linarith)
    constructor <;> linarith

theorem calc_general_reduction_lt_one_witness :
    calc_general_reduction [0.8, 0] < 1 ∧
      0 < 1 - calc_general_reduction [0.8, 0] :=
  calc_general_reduction_lt_one [0.8, 0]
    (by intro f hf; simp at hf; rcases hf with h | h <;> subst h <;> norm_num)

/-- C6: the combined reduction of no arguments is 0, of a single argument `f`
is `f`, is invariant under permutation of its arguments, and combining an
already-combined result with further fractions equals combining all at once. -/
theorem calc_general_reduction_algebra :
    calc_general_reduction [] = 0
    ∧ (∀ f : ℚ, calc_general_reduction [f] = f)
    ∧ (∀ xs ys : List ℚ, xs.Perm ys →
        calc_general_reduction xs = calc_general_reduction ys)
    ∧ (∀ xs ys : List ℚ,
        calc_general_reduction (calc_general_reduction xs :: ys)
          = calc_general_reduction (xs ++ ys)) := by
  refine ⟨rfl, ?_, ?_, ?_⟩
  · intro f
    rw [general_reduction_eq]
    simp
  · intro xs ys h
    rw [general_reduction_eq, general_reduction_eq, (h.map _).prod_eq]
  · intro xs ys
    rw [general_reduction_eq, general_reduction_eq, general_reduction_eq]
    simp only [List.map_cons, List.prod_cons, List.map_append, List.prod_append]
    ring

theorem calc_general_reduction_algebra_witness :
    calc_general_reduction [0.5, 0.2] = calc_general_reduction [0.2, 0.5] :=
  calc_general_reduction_algebra.2.2.1 [0.5, 0.2] [0.2, 0.5]
    (List.Perm.swap 0.2 0.5 [])

/-- C7: the protection reduction is monotonically non-decreasing and equals
exactly 0.8 for every protection sum at least 20. -/
theorem calc_protection_reduction_monotone_cap :
    (∀ x y : ℚ, x ≤ y →
        calc_protection_reduction x ≤ calc_protection_reduction y)
    ∧ (∀ x : ℚ, 20 ≤ x → calc_protection_reduction x = 0.8) := by
  constructor
  · intro x y h
    unfold calc_protection_reduction
    exact min_le_min (by nlinarith) le_rfl
  · intro x h
    unfold calc_protection_reduction
    rw [min_eq_right]
    nlinarith

theorem calc_protection_reduction_monotone_cap_witness :
    calc_protection_reduction 1 ≤ calc_protection_reduction 2 ∧
      calc_protection_reduction 25 = 0.8 :=
  ⟨calc_protection_reduction_monotone_cap.1 1 2 (by norm_num),
   calc_protection_reduction_monotone_cap.2 25 (by norm_num)⟩

/-- C8: the evasion reduction is constant (`min(k * 0.2, 0.8)`) on each
half-open interval `[5k, 5k + 5)`, and equals 0.8 for sums at least 20. -/
theorem calc_evasion_reduction_step :
    (∀ (k : ℕ) (x : ℚ), (5 * k : ℚ) ≤ x → x < 5 * k + 5 →
        calc_evasion_reduction x = min ((k : ℚ) * 0.2) 0.8)
    ∧ (∀ x : ℚ, 20 ≤ x → calc_evasion_reduction x = 0.8) := by
  constructor
  · intro k x h1 h2
    unfold calc_evasion_reduction
    have hf : ⌊x / 5⌋ = (k : ℤ) := by
      rw [Int.floor_eq_iff]
      constructor
      · push_cast; linarith
      · push_cast; linarith
    rw [hf]
    push_cast
    ring_nf
  · intro x h
    unfold calc_evasion_reduction
    have h4 : (4 : ℤ) ≤ ⌊x / 5⌋ := by
      rw [Int.le_floor]
      push_cast
      linarith
    have h4q : (4 : ℚ) ≤ (⌊x / 5⌋ : ℚ) := by exact_mod_cast h4
    rw [min_eq_right]
    nlinarith

theorem calc_evasion_reduction_step_witness :
    calc_evasion_reduction 7 = min ((1 : ℚ) * 0.2) 0.8 ∧
      calc_evasion_reduction 23 = 0.8 :=
  ⟨calc_evasion_reduction_step.1 1 7 (by norm_num) (by norm_num),
   calc_evasion_reduction_step.2 23 (by norm_num)⟩

/-- C9: the attribute sum is the total of the attribute's value over exactly
those loadout items whose attribute bag defines it; items lacking the
attribute contribute nothing, and the function is total (missing keys are
skipped, never an error). -/
theorem get_property_sum_spec (property : String) (gear : Gear) :
    get_property_sum property gear
      = (gear.filterMap (fun ki => ki.2.data.lookup property)).sum := by
  suffices h : ∀ (l : Gear) (init : ℚ),
      l.foldl (fun sum ki =>
        match ki.2.data.lookup property with
        | some v => sum + v
        | none => sum) init
        = init + (l.filterMap (fun ki => ki.2.data.lookup property)).sum by
    simpa [get_property_sum] using h gear 0
  intro l
  induction l with
  | nil => intro init; simp
  | cons a t ih =>
    intro init
    simp only [List.foldl_cons, List.filterMap_cons]
    cases h : a.2.data.lookup property with
    | none => simp [ih]
    | some v => simp only [List.sum_cons, ih]; ring

private lemma legal_filter_empty {wl bl : List String} {items : List String}
    (h : items.filter (fun n => legal_item wl bl n) = []) :
    items.filter (fun n => !legal_item wl bl n && decide (n ∉ bl))
      = items.filter (fun n => decide (n ∉ bl)) := by
  apply List.filter_congr
  intro n hn
  have hfalse : legal_item wl bl n = false := by
    have := List.filter_eq_nil_iff.mp h n hn
    simpa using this
  rw [hfalse]
  simp

/-- C3: whenever the whitelist/blacklist eligibility policy matches no item of
a slot, the candidate list falls back to every non-blacklisted item of the
slot; in particular a whitelist matching no item never yields an empty
candidate list while non-blacklisted items exist. -/
theorem slot_candidates_fallback (wl bl items : List String) :
    (items.filter (fun n => legal_item wl bl n) = [] →
      slot_candidates wl bl items = items.filter (fun n => decide (n ∉ bl)))
    ∧ ((∀ n ∈ items, n ∉ wl) →
        items.filter (fun n => decide (n ∉ bl)) ≠ [] →
        slot_candidates wl bl items ≠ []) := by
  constructor
  · intro h
    rw [slot_candidates, if_pos (by simp [h])]
    exact legal_filter_empty h
  · intro _ hne
    rw [slot_candidates]
    split
    · rename_i hempty
      rw [legal_filter_empty (List.isEmpty_iff.mp hempty)]
      exact hne
    · rename_i hempty
      simpa using hempty

theorem slot_candidates_fallback_witness :
    slot_candidates ["nonexistent_item"] [] ["boots_a", "boots_b"]
      = ["boots_a", "boots_b"].filter (fun n => decide (n ∉ ([] : List String)))
    ∧ slot_candidates ["nonexistent_item"] [] ["boots_a", "boots_b"] ≠ [] :=
  ⟨(slot_candidates_fallback ["nonexistent_item"] [] ["boots_a", "boots_b"]).1
      (by decide),
   (slot_candidates_fallback ["nonexistent_item"] [] ["boots_a", "boots_b"]).2
      (by decide) (by decide)⟩

private lemma default_scale_protection (rd : ReductionData) :
    scale_reduction_type [("protection", 1), ("armor", 1), ("evasion", 1)] rd
      ["protection", "projectile", "fire", "blast", "feather_falling"]
      = rd.protection := by
  simp [scale_reduction_type, ReductionData.lookup, List.filter]

private lemma default_scale_armor (rd : ReductionData) :
    scale_reduction_type [("protection", 1), ("armor", 1), ("evasion", 1)] rd
      ["armor"] = rd.armor := by
  simp [scale_reduction_type, ReductionData.lookup, List.filter]

private lemma default_scale_evasion (rd : ReductionData) :
    scale_reduction_type [("protection", 1), ("armor", 1), ("evasion", 1)] rd
      ["evasion", "ability", "melee"] = rd.evasion := by
  simp [scale_reduction_type, ReductionData.lookup, List.filter]

/-- C10: under the default scaling weights (protection, armor, evasion all 1),
the scaled combined reduction of every loadout equals its true combined
reduction and the scaled effective health equals the true effective health,
so the scaled ranking key coincides with unweighted effective health. -/
theorem default_scaling_refinement (ed : ℚ) (gear : Gear) :
    (calc_scaled_reduction [("protection", 1), ("armor", 1), ("evasion", 1)]
        (calc_damage_reduction ed gear) gear).scaled
      = (calc_damage_reduction ed gear).general
    ∧ (calc_scaled_reduction [("protection", 1), ("armor", 1), ("evasion", 1)]
        (calc_damage_reduction ed gear) gear).scaled_effective_health
      = (calc_damage_reduction ed gear).true_effective_health := by
  have hs : (calc_scaled_reduction [("protection", 1), ("armor", 1), ("evasion", 1)]
      (calc_damage_reduction ed gear) gear).scaled
      = (calc_damage_reduction ed gear).general := by
    simp only [calc_scaled_reduction, default_scale_protection, default_scale_armor,
      default_scale_evasion]
    simp [calc_damage_reduction]
  refine ⟨hs, ?_⟩
  simp only [calc_scaled_reduction] at hs ⊢
  rw [hs]
  simp [calc_damage_reduction]

private lemma filterMap_if_sum (a : String) (o : ℚ) (g : String → Option ℚ)
    (hg : g a = none) :
    ∀ (dts : List String), dts.Nodup →
      (dts.filterMap (fun t => if t = a then some o else g t)).sum
        = (if a ∈ dts then o else 0) + (dts.filterMap g).sum := by
  intro dts
  induction dts with
  | nil => simp
  | cons d ds ih =>
    intro hnd
    obtain ⟨hd, hds⟩ := List.nodup_cons.mp hnd
    by_cases h : d = a
    · subst h
      have hstep : List.filterMap (fun t => if t = d then some o else g t) (d :: ds)
          = o :: List.filterMap (fun t => if t = d then some o else g t) ds :=
        List.filterMap_cons_some (by simp)
      rw [hstep, List.sum_cons, ih hds, if_neg hd, if_pos (List.mem_cons_self d ds),
        List.filterMap_cons_none hg]
      ring
    · have hiff : a ∈ d :: ds ↔ a ∈ ds := by
        rw [List.mem_cons]
        exact or_iff_right (fun hc => h hc.symm)
      cases hgd : g d with
      | none =>
        have hF : (fun t => if t = a then some o else g t) d = none := by
          simp [h, hgd]
        rw [List.filterMap_cons_none (f := fun t => if t = a then some o else g t) hF,
          ih hds, List.filterMap_cons_none hgd, if_congr hiff rfl rfl]
      | some w =>
        have hF : (fun t => if t = a then some o else g t) d = some w := by
          simp [h, hgd]
        rw [List.filterMap_cons_some (f := fun t => if t = a then some o else g t) hF,
          List.sum_cons, ih hds, List.filterMap_cons_some hgd, List.sum_cons,
          if_congr hiff rfl rfl]
        ring

private lemma sum_filter_lookup (f : String → ℚ → ℚ) :
    ∀ (ws : List (String × ℚ)) (dts : List String),
      (ws.map Prod.fst).Nodup → dts.Nodup →
      ((ws.filter (fun x => decide (x.1 ∈ dts))).map (fun x => f x.1 x.2)).sum
        = (dts.filterMap (fun t => (ws.lookup t).map (f t))).sum := by
  intro ws
  induction ws with
  | nil =>
    intro dts h1 h2
    clear h1 h2
    induction dts with
    | nil => simp
    | cons d ds ihd => simpa using ihd
  | cons kv ws ih =>
    intro dts hw hd
    obtain ⟨k, v⟩ := kv
    rw [List.map_cons] at hw
    obtain ⟨hk, hw'⟩ := List.nodup_cons.mp hw
    have hlook : ws.lookup k = none := by
      rw [List.lookup_eq_none_iff]
      intro p hp
      have hmemp : p.1 ∈ ws.map Prod.fst := List.mem_map_of_mem Prod.fst hp
      simp only [bne_iff_ne, ne_eq]
      intro hc
      exact hk (hc ▸ hmemp)
    have hfun : (fun t => (((k, v) :: ws).lookup t).map (f t))
        = (fun t => if t = k then some (f k v) else ((ws.lookup t).map (f t))) := by
      funext t
      by_cases h : t = k
      · subst h
        simp
      · have hbeq : (t == k) = false := by simpa using h
        simp [List.lookup_cons, hbeq, h]
    rw [hfun, filterMap_if_sum k (f k v) (fun t => (ws.lookup t).map (f t))
      (by simp [hlook]) dts hd]
    by_cases hmem : k ∈ dts
    · have hcond : decide (((k, v) : String × ℚ).1 ∈ dts) = true := by
        simpa using hmem
      rw [List.filter_cons, if_pos hcond, List.map_cons, List.sum_cons,
        ih dts hw' hd, if_pos hmem]
    · have hcond : ¬ decide (((k, v) : String × ℚ).1 ∈ dts) = true := by
        simpa using hmem
      rw [List.filter_cons, if_neg hcond, ih dts hw' hd, if_neg hmem]
      ring

/-- C1 counterexample: with weights mapping `{protection: 1/2}` and a profile
whose general protection reduction is 4/5, the code's scaled protection value
is 2/5 (the general `protection` key itself is weighted), while the claim's
formula over the sub-types projectile/blast/fire/fall alone yields 0. -/
theorem scale_reduction_claim_counterexample :
    (calc_scaled_reduction [("protection", 1 / 2)] sampleReduction []).scaled_protection
      ≠ specScaledCategory [("protection", 1 / 2)] sampleReduction
          ["projectile", "blast", "fire", "feather_falling"] := by
  have hL : (calc_scaled_reduction [("protection", 1 / 2)] sampleReduction
      []).scaled_protection = 2 / 5 := by
    simp [calc_scaled_reduction, scale_reduction_type, ReductionData.lookup,
      sampleReduction, List.filter]
    norm_num
  have b1 : ("projectile" == "protection") = false := by decide
  have b2 : ("blast" == "protection") = false := by decide
  have b3 : ("fire" == "protection") = false := by decide
  have b4 : ("feather_falling" == "protection") = false := by decide
  have hR : specScaledCategory [("protection", 1 / 2)] sampleReduction
      ["projectile", "blast", "fire", "feather_falling"] = 0 := by
    simp [specScaledCategory, List.lookup_cons, List.filterMap_cons, b1, b2, b3, b4]
  rw [hL, hR]
  norm_num

/-- C1 (amended): for every weights mapping with distinct keys, the scaled
value of each top-level category equals the sum over that category's weighted
damage types of `profile[t] * weights[t]` divided by
`max(Σ present weights, 1)`, where the weighted damage types include the
category's own general key: protection's are protection, projectile, fire,
blast and feather_falling (fall), armor's is armor alone, and evasion's are
evasion, ability and melee. -/
theorem scale_reduction_weighted_types (ts : List (String × ℚ))
    (rd : ReductionData) (gear : Gear) (h : (ts.map Prod.fst).Nodup) :
    (calc_scaled_reduction ts rd gear).scaled_protection
      = specScaledCategory ts rd
          ["protection", "projectile", "fire", "blast", "feather_falling"]
    ∧ (calc_scaled_reduction ts rd gear).scaled_armor
      = specScaledCategory ts rd ["armor"]
    ∧ (calc_scaled_reduction ts rd gear).scaled_evasion
      = specScaledCategory ts rd ["evasion", "ability", "melee"] := by
  refine ⟨?_, ?_, ?_⟩ <;>
  · simp only [calc_scaled_reduction, scale_reduction_type, specScaledCategory]
    rw [show (fun x : String × ℚ => rd.lookup x.1 * x.2)
        = (fun x : String × ℚ => (fun t w => rd.lookup t * w) x.1 x.2) from rfl,
      sum_filter_lookup (fun t w => rd.lookup t * w) ts _ h (by decide)]
    have h2 := sum_filter_lookup (fun _ w => w) ts _ h
      (by decide : (["protection", "projectile", "fire", "blast",
        "feather_falling"] : List String).Nodup)
    have h3 := sum_filter_lookup (fun _ w => w) ts _ h
      (by decide : (["armor"] : List String).Nodup)
    have h4 := sum_filter_lookup (fun _ w => w) ts _ h
      (by decide : (["evasion", "ability", "melee"] : List String).Nodup)
    simp only [Option.map_id'] at h2 h3 h4
    first
      | rw [show (fun x : String × ℚ => x.2)
            = (fun x : String × ℚ => (fun t w => w) x.1 x.2) from rfl, h2]
      | rw [show (fun x : String × ℚ => x.2)
            = (fun x : String × ℚ => (fun t w => w) x.1 x.2) from rfl, h3]
      | rw [show (fun x : String × ℚ => x.2)
            = (fun x : String × ℚ => (fun t w => w) x.1 x.2) from rfl, h4]

theorem scale_reduction_weighted_types_witness :
    (calc_scaled_reduction [("protection", 1 / 2)] sampleReduction []).scaled_protection
      = specScaledCategory [("protection", 1 / 2)] sampleReduction
          ["protection", "projectile", "fire", "blast", "feather_falling"] :=
  (scale_reduction_weighted_types [("protection", 1 / 2)] sampleReduction []
    (by decide)).1

private lemma score_le_trans : ∀ a b c : ScaledData × Gear,
    score_le a b → score_le b c → score_le a c := by
  intro a b c hab hbc
  simp only [score_le, decide_eq_true_eq] at hab hbc ⊢
  exact le_trans hab hbc

private lemma score_le_total : ∀ a b : ScaledData × Gear,
    score_le a b || score_le b a := by
  intro a b
  simp only [score_le, Bool.or_eq_true, decide_eq_true_eq]
  exact le_total _ _

private lemma getLast?_drop_ne_nil {α : Type} (l : List α) (n : ℕ)
    (h : l.drop n ≠ []) : (l.drop n).getLast? = l.getLast? := by
  conv_rhs => rw [← List.take_append_drop n l]
  rw [List.getLast?_append]
  cases hx : (l.drop n).getLast? with
  | none => exact absurd (List.getLast?_eq_none_iff.mp hx) h
  | some y => rfl

private lemma pairwise_score_getLast :
    ∀ (l : List (ScaledData × Gear)), l.Pairwise (fun a b => score_le a b) →
      ∀ y, l.getLast? = some y → ∀ x ∈ l,
        x.1.scaled_effective_health ≤ y.1.scaled_effective_health := by
  intro l
  induction l with
  | nil =>
    intro _ y hy
    simp at hy
  | cons a t ih =>
    intro hp y hy x hx
    obtain ⟨ha, ht⟩ := List.pairwise_cons.mp hp
    cases t with
    | nil =>
      simp at hy hx
      subst hy
      subst hx
      exact le_refl _
    | cons b t2 =>
      rw [List.getLast?_cons_cons] at hy
      rcases List.mem_cons.mp hx with rfl | hx2
      · have hyM : y ∈ b :: t2 := List.mem_of_getLast?_eq_some hy
        simpa [score_le] using ha y hyM
      · exact ih ht y hy x hx2

/-- C2: for a run evaluating the given loadouts with display count `k`, the
emitted list has exactly `k` entries when `k` is less than the number of
evaluated combinations and all of them otherwise, is sorted ascending by
scaled score, and its last entry's score is at least the score of every
evaluated combination. -/
theorem optimize_gear_ranking (ed : ℚ) (ts : List (String × ℚ)) (k : ℕ)
    (loadouts : List Gear) :
    (k < loadouts.length → (optimize_gear ed ts k loadouts).length = k)
    ∧ (loadouts.length ≤ k →
        (optimize_gear ed ts k loadouts).length = loadouts.length)
    ∧ (optimize_gear ed ts k loadouts).Pairwise
        (fun a b => a.1.scaled_effective_health ≤ b.1.scaled_effective_health)
    ∧ (∀ y, (optimize_gear ed ts k loadouts).getLast? = some y →
        ∀ g ∈ loadouts,
          (evaluate_loadout ed ts g).1.scaled_effective_health
            ≤ y.1.scaled_effective_health) := by
  have hsort : ((loadouts.map (evaluate_loadout ed ts)).mergeSort score_le).Pairwise
      (fun a b => score_le a b) :=
    List.sorted_mergeSort score_le_trans score_le_total _
  have hlen : ((loadouts.map (evaluate_loadout ed ts)).mergeSort score_le).length
      = loadouts.length := by
    rw [List.length_mergeSort, List.length_map]
  refine ⟨?_, ?_, ?_, ?_⟩
  · intro h
    simp only [optimize_gear, List.length_drop, hlen]
    omega
  · intro h
    simp only [optimize_gear, List.length_drop, hlen]
    omega
  · have hdrop : (optimize_gear ed ts k loadouts).Pairwise
        (fun a b => score_le a b) := by
      simp only [optimize_gear]
      exact List.Pairwise.sublist (List.drop_sublist _ _) hsort
    exact hdrop.imp (fun hab => by simpa [score_le] using hab)
  · intro y hy g hg
    have hne : optimize_gear ed ts k loadouts ≠ [] := by
      intro h0
      rw [h0] at hy
      simp at hy
    have hne' : ((loadouts.map (evaluate_loadout ed ts)).mergeSort score_le).drop
        (((loadouts.map (evaluate_loadout ed ts)).mergeSort score_le).length - k)
          ≠ [] := by
      simpa [optimize_gear] using hne
    have hy2 : ((loadouts.map (evaluate_loadout ed ts)).mergeSort score_le).getLast?
        = some y := by
      rw [← getLast?_drop_ne_nil _ _ hne']
      simpa [optimize_gear] using hy
    have hmem : evaluate_loadout ed ts g
        ∈ (loadouts.map (evaluate_loadout ed ts)).mergeSort score_le := by
      rw [List.mem_mergeSort]
      exact List.mem_map_of_mem _ hg
    exact pairwise_score_getLast _ hsort y hy2 _ hmem

theorem optimize_gear_ranking_witness :
    (optimize_gear 20 [] 1
      [[], [("boots", { name := "b", data := [("health", 10)] })]]).length = 1 :=
  (optimize_gear_ranking 20 [] 1
    [[], [("boots", { name := "b", data := [("health", 10)] })]]).1 (by simp)
